import Mathlib

/-!
Verification of the SimpleCPP `Pointer` smart-pointer class
(`src/include/SimpleCPP/pointer.h`), a shared-ownership handle over a
heap-allocated buffer with a separately `malloc`ed reference-counter cell and a
compile-time injected allocator/deallocator pair for the data buffer.

Shallow embedding conventions:
* Addresses are natural numbers; `0` plays the role of `nullptr`.  Fresh
  allocations hand out `nextAddr` and advance it, so distinct live allocations
  have distinct nonzero addresses.
* `Mem` is the global allocator state: live `malloc` allocations (the counter
  cells, stored with their `size_t` contents), live data-buffer allocations
  made through the injected allocator, and the instrumentation counters kept by
  the test harness's allocator (`alloc_count`, `dealloc_count`,
  `allocated_size` in `src/tests/pointer.cpp`).
* The injected allocator follows the documented contract (it raises on failure
  and never returns null); whether a given allocation attempt succeeds is an
  explicit oracle argument (`mOk` for the counter-cell `malloc`, `aOk` for the
  injected allocator), so both success and failure paths of the constructors
  are embedded.
* The reference counter is modelled as an unbounded natural number; the C++
  `size_t` increments/decrements never wrap in any state where the class
  invariant (counter = number of live sharing handles) holds, since wrapping
  would need 2^64 simultaneously live handles.
* Buffer contents are not modelled (`memcpy` moves bytes only); none of the
  verified properties concern the bytes stored in the buffer.
-/

namespace SimpleCPP

/-- Association list of live `malloc` allocations: address paired with the
`size_t` value currently stored there (`0` when never written). -/
abbrev CellHeap := List (Nat × Nat)

/-- Read the `size_t` stored at address `a` (`0` when `a` is not a live
allocation: reading unallocated memory is UB in C++, the model yields `0`). -/
def lookupCell : CellHeap → Nat → Nat
  | [], _ => 0
  | (k, v) :: rest, a => if k = a then v else lookupCell rest a

/-- Write value `w` through a pointer to address `a` (no effect when `a` is not
live: writing unallocated memory is UB in C++, the model ignores it). -/
def storeCell : CellHeap → Nat → Nat → CellHeap
  | [], _, _ => []
  | (k, v) :: rest, a, w =>
    if k = a then (k, w) :: storeCell rest a w else (k, v) :: storeCell rest a w

/-- Release the allocation at address `a` (like `free`). -/
def freeCell : CellHeap → Nat → CellHeap
  | [], _ => []
  | (k, v) :: rest, a =>
    if k = a then freeCell rest a else (k, v) :: freeCell rest a

/-- Is address `a` a live `malloc` allocation? -/
def hasCell : CellHeap → Nat → Bool
  | [], _ => false
  | (k, _) :: rest, a => if k = a then true else hasCell rest a

/-- Global allocator state. -/
structure Mem where
  /-- Next fresh address; addresses start at 1 so that 0 is `nullptr`. -/
  nextAddr : Nat
  /-- Live `malloc` allocations (counter cells), with stored contents. -/
  mallocs : CellHeap
  /-- Live data-buffer allocations made through the injected allocator. -/
  dataAllocs : List Nat
  /-- `alloc_count` of the instrumented injected allocator. -/
  allocCount : Nat
  /-- `dealloc_count` of the instrumented injected deallocator. -/
  deallocCount : Nat
  /-- `allocated_size` of the instrumented injected allocator. -/
  allocatedSize : Nat
  deriving DecidableEq, Repr

/-- The empty initial allocator state. -/
def Mem.init : Mem := ⟨1, [], [], 0, 0, 0⟩

/-- C `malloc`: returns a fresh nonzero address, or `0` (null) when the oracle
`ok` says this allocation attempt fails. -/
def Mem.malloc (m : Mem) (ok : Bool) : Nat × Mem :=
  if ok then
    (m.nextAddr,
     { m with nextAddr := m.nextAddr + 1, mallocs := (m.nextAddr, 0) :: m.mallocs })
  else (0, m)

/-- C `free` on a counter cell. -/
def Mem.free (m : Mem) (a : Nat) : Mem :=
  { m with mallocs := freeCell m.mallocs a }

/-- Store a `size_t` through a counter-cell pointer (`*p = v`). -/
def Mem.store (m : Mem) (a v : Nat) : Mem :=
  { m with mallocs := storeCell m.mallocs a v }

/-- Load a `size_t` through a counter-cell pointer (`*p`). -/
def Mem.lookup (m : Mem) (a : Nat) : Nat :=
  lookupCell m.mallocs a

/-- The injected allocator under its documented contract: bumps the
instrumentation counters (the test allocator does `alloc_count++;
allocated_size += size;` before allocating), then either returns a fresh
non-null address or raises (`none`) when the oracle `ok` says it fails. -/
def Mem.allocData (m : Mem) (size : Nat) (ok : Bool) : Option Nat × Mem :=
  let m₁ := { m with allocCount := m.allocCount + 1,
                     allocatedSize := m.allocatedSize + size }
  if ok then
    (some m₁.nextAddr,
     { m₁ with nextAddr := m₁.nextAddr + 1, dataAllocs := m₁.nextAddr :: m₁.dataAllocs })
  else (none, m₁)

/-- The injected deallocator: bumps `dealloc_count` and releases the buffer. -/
def Mem.deallocData (m : Mem) (a : Nat) : Mem :=
  { m with deallocCount := m.deallocCount + 1,
           dataAllocs := m.dataAllocs.filter (fun x => x ≠ a) }

/-- Errors raised by the constructors. -/
inductive Err where
  | bad_alloc
  | invalid_argument
  deriving DecidableEq, Repr

/-- Embedding of `simplecpp::default_allocator` (pointer.h:8-13).  The source
body is `auto data = malloc(size); if (data == nullptr) throw bad_alloc;` and
contains NO return statement, so on the success path control flows off the end
of a value-returning function and no address is produced: the success result is
modelled as `none` (the `size` argument only sizes the request; the cell model
does not record sizes). -/
def default_allocator (m : Mem) (size : Nat) (ok : Bool) :
    Except Err (Option Nat) × Mem :=
  let data := (m.malloc ok).1
  let m₁ := (m.malloc ok).2
  if data = 0 then (.error .bad_alloc, m₁) else (.ok none, m₁)

/-- Embedding of `simplecpp::default_deallocator` (pointer.h:15). -/
def default_deallocator (m : Mem) (a : Nat) : Mem :=
  m.free a

/-- A `Pointer<T, alloc, dealloc>` handle: the two raw-pointer fields. -/
structure Pointer where
  /-- `size_t* _refs` — address of the shared counter cell (0 = null). -/
  _refs : Nat
  /-- `T* _data` — address of the shared data buffer (0 = null). -/
  _data : Nat
  deriving DecidableEq, Repr

namespace Pointer

/-- Default constructor `Pointer()` (pointer.h:33): both fields null. -/
def defaultCtor : Pointer := ⟨0, 0⟩

/-- `is_valid()` (pointer.h:180): `_data != nullptr`. -/
def is_valid (p : Pointer) : Bool := p._data != 0

/-- `get()` (pointer.h:160/167): the raw buffer address. -/
def get (p : Pointer) : Nat := p._data

/-- `get_ref_count()` (pointer.h:173): `is_valid() ? *_refs : 0`. -/
def get_ref_count (p : Pointer) (m : Mem) : Nat :=
  if p.is_valid then m.lookup p._refs else 0

/-- Private `dec_ref()` (pointer.h:239-248): if valid, pre-decrement the
counter; when it reaches 0, `dealloc(_data)` then `free(_refs)`; in either case
null both fields.  `noexcept` in the source; accordingly the embedding is a
total function into `Pointer × Mem` with no error outcome. -/
def dec_ref (p : Pointer) (m : Mem) : Pointer × Mem :=
  if p.is_valid then
    let v := m.lookup p._refs - 1
    let m₁ := m.store p._refs v
    if v = 0 then (⟨0, 0⟩, (m₁.deallocData p._data).free p._refs)
    else (⟨0, 0⟩, m₁)
  else (p, m)

/-- `Pointer(const size_t& len)` (pointer.h:44-51).  Member-initializer order
follows field declaration order: `_refs = malloc(sizeof(size_t))` first, then
`_data = alloc(len * sizeof(T))`; the body throws `bad_alloc` when `_refs` is
null, else stores `*_refs = 1`.  If the injected allocator raises during the
initializer list the exception propagates with no cleanup (the already
`malloc`ed counter cell stays live in the returned memory); if the counter-cell
`malloc` returned null the body throws with the data buffer still live.
`tSize` is `sizeof(T)`. -/
def ctorLen (tSize : Nat) (m : Mem) (len : Nat) (mOk aOk : Bool) :
    Except Err Pointer × Mem :=
  let r := (m.malloc mOk).1
  let m₁ := (m.malloc mOk).2
  match (m₁.allocData (len * tSize) aOk).1, (m₁.allocData (len * tSize) aOk).2 with
  | none, m₂ => (.error .bad_alloc, m₂)
  | some d, m₂ =>
    if r = 0 then (.error .bad_alloc, m₂)
    else (.ok ⟨r, d⟩, m₂.store r 1)

/-- `Pointer(const T* data, const size_t& len)` (pointer.h:66-78).  Same
initializer list as `ctorLen`; after setting `*_refs = 1` it checks the source
pointer: if null it calls `dec_ref()` (releasing the fresh cell and buffer) and
throws `invalid_argument`, otherwise it `memcpy`s `len * sizeof(T)` bytes from
the caller's array (byte contents are not modelled). -/
def ctorData (tSize : Nat) (m : Mem) (data : Nat) (len : Nat) (mOk aOk : Bool) :
    Except Err Pointer × Mem :=
  let r := (m.malloc mOk).1
  let m₁ := (m.malloc mOk).2
  match (m₁.allocData (len * tSize) aOk).1, (m₁.allocData (len * tSize) aOk).2 with
  | none, m₂ => (.error .bad_alloc, m₂)
  | some d, m₂ =>
    if r = 0 then (.error .bad_alloc, m₂)
    else
      let m₃ := m₂.store r 1
      if data = 0 then (.error .invalid_argument, (Pointer.dec_ref ⟨r, d⟩ m₃).2)
      else (.ok ⟨r, d⟩, m₃)

/-- Copy constructor `Pointer(const Pointer&)` (pointer.h:87-91): share both
fields; increment the counter only when `_refs` is non-null. -/
def copyCtor (other : Pointer) (m : Mem) : Pointer × Mem :=
  if other._refs ≠ 0 then
    (⟨other._refs, other._data⟩, m.store other._refs (m.lookup other._refs + 1))
  else (⟨other._refs, other._data⟩, m)

/-- Move constructor `Pointer(Pointer&&)` (pointer.h:100-103): take both
fields, null the source; returns (new handle, moved-from source). -/
def moveCtor (other : Pointer) : Pointer × Pointer :=
  (⟨other._refs, other._data⟩, ⟨0, 0⟩)

/-- Copy assignment `operator=(const Pointer&)` (pointer.h:117-130) for two
distinct objects (the `this == &other` self-assignment branch returns with no
state change): `dec_ref()` the current reference, take `other._refs`, and only
when that is non-null increment the counter and take `other._data`. -/
def copyAssign (p other : Pointer) (m : Mem) : Pointer × Mem :=
  let p₁ := (p.dec_ref m).1
  let m₁ := (p.dec_ref m).2
  if other._refs ≠ 0 then
    (⟨other._refs, other._data⟩, m₁.store other._refs (m₁.lookup other._refs + 1))
  else (⟨other._refs, p₁._data⟩, m₁)

/-- Move assignment `operator=(Pointer&&)` (pointer.h:139-151) for two distinct
objects (self-move returns with no state change): `dec_ref()` the current
reference, take both fields, null the source; returns (destination, moved-from
source, memory). -/
def moveAssign (p other : Pointer) (m : Mem) : Pointer × Pointer × Mem :=
  let m₁ := (p.dec_ref m).2
  (⟨other._refs, other._data⟩, ⟨0, 0⟩, m₁)

/-- Destructor `~Pointer()` (pointer.h:108): `dec_ref()`. -/
def dtor (p : Pointer) (m : Mem) : Mem :=
  (p.dec_ref m).2

/-- `operator==(const Pointer&, const Pointer&)` (pointer.h:197-199):
`a._refs == b._refs && a._data == b._data`. -/
def eq (a b : Pointer) : Bool :=
  a._refs == b._refs && a._data == b._data

/-- `operator==(const Pointer&, const T*)` (pointer.h:206): `a._data == b`. -/
def eqRaw (a : Pointer) (b : Nat) : Bool :=
  a._data == b

end Pointer

/-- A world: the allocator state together with the multiset of live handles. -/
structure World where
  mem : Mem
  handles : List Pointer

/-- The initial world: empty memory, no live handles. -/
def World.init : World := ⟨Mem.init, []⟩

/-- Number of live handles whose `_refs` field references counter cell `c`. -/
def refsTo (hs : List Pointer) (c : Nat) : Nat :=
  (hs.filter (fun q => q._refs = c)).length

/-- One public operation on the world.  Unary operations act on the handle at
the head of the list and binary ones on the first two (distinct live objects,
so the self-assignment guards of the C++ operators do not fire; self-assignment
itself is a no-op covered by reflexivity of `Reachable`); the `perm` step
reorders the list so any live handle can be brought to the front. -/
inductive Step : World → World → Prop where
  | defaultCtor (m : Mem) (hs : List Pointer) :
      Step ⟨m, hs⟩ ⟨m, ⟨0, 0⟩ :: hs⟩
  | ctorLenOk (tSize : Nat) (m : Mem) (hs : List Pointer) (len : Nat)
      (mOk aOk : Bool) (p : Pointer) (m' : Mem)
      (h : Pointer.ctorLen tSize m len mOk aOk = (.ok p, m')) :
      Step ⟨m, hs⟩ ⟨m', p :: hs⟩
  | ctorLenErr (tSize : Nat) (m : Mem) (hs : List Pointer) (len : Nat)
      (mOk aOk : Bool) (e : Err) (m' : Mem)
      (h : Pointer.ctorLen tSize m len mOk aOk = (.error e, m')) :
      Step ⟨m, hs⟩ ⟨m', hs⟩
  | ctorDataOk (tSize : Nat) (m : Mem) (hs : List Pointer) (src len : Nat)
      (mOk aOk : Bool) (p : Pointer) (m' : Mem)
      (h : Pointer.ctorData tSize m src len mOk aOk = (.ok p, m')) :
      Step ⟨m, hs⟩ ⟨m', p :: hs⟩
  | ctorDataErr (tSize : Nat) (m : Mem) (hs : List Pointer) (src len : Nat)
      (mOk aOk : Bool) (e : Err) (m' : Mem)
      (h : Pointer.ctorData tSize m src len mOk aOk = (.error e, m')) :
      Step ⟨m, hs⟩ ⟨m', hs⟩
  | copyCtor (m : Mem) (hs : List Pointer) (other : Pointer) :
      Step ⟨m, other :: hs⟩
        ⟨(other.copyCtor m).2, (other.copyCtor m).1 :: other :: hs⟩
  | moveCtor (m : Mem) (hs : List Pointer) (other : Pointer) :
      Step ⟨m, other :: hs⟩ ⟨m, other.moveCtor.1 :: other.moveCtor.2 :: hs⟩
  | copyAssign (m : Mem) (hs : List Pointer) (p other : Pointer) :
      Step ⟨m, p :: other :: hs⟩
        ⟨(p.copyAssign other m).2, (p.copyAssign other m).1 :: other :: hs⟩
  | moveAssign (m : Mem) (hs : List Pointer) (p other : Pointer) :
      Step ⟨m, p :: other :: hs⟩
        ⟨(p.moveAssign other m).2.2,
         (p.moveAssign other m).1 :: (p.moveAssign other m).2.1 :: hs⟩
  | destroy (m : Mem) (hs : List Pointer) (p : Pointer) :
      Step ⟨m, p :: hs⟩ ⟨(p.dec_ref m).2, hs⟩
  | perm (m : Mem) (hs hs' : List Pointer) (h : hs.Perm hs') :
      Step ⟨m, hs⟩ ⟨m, hs'⟩

/-- A world is reachable when a finite sequence of public operations builds it
from the initial world. -/
def Reachable (w : World) : Prop :=
  Relation.ReflTransGen Step World.init w

/-- The per-handle validity predicate: fully valid (both pointers non-null,
counter value at least 1 and equal to the number of live handles referencing
that cell) or fully invalid (both pointers null). -/
def goodAt (m : Mem) (hs : List Pointer) (p : Pointer) : Prop :=
  (p._refs ≠ 0 ∧ p._data ≠ 0 ∧ 1 ≤ m.lookup p._refs
     ∧ m.lookup p._refs = refsTo hs p._refs)
  ∨ (p._refs = 0 ∧ p._data = 0)

/-- The invariant over the bare components: address freshness bookkeeping plus
`goodAt` for every live handle. -/
def MemInv (m : Mem) (hs : List Pointer) : Prop :=
  0 < m.nextAddr
  ∧ (∀ p ∈ hs, p._refs < m.nextAddr)
  ∧ (∀ p ∈ hs, goodAt m hs p)

/-- The world invariant: every live handle is fully valid (with a correctly
counted counter cell) or fully invalid. -/
def WorldInv (w : World) : Prop :=
  MemInv w.mem w.handles

/-- Well-formedness of a bare allocator state: all live addresses are nonzero
and below the fresh-address watermark. -/
def Mem.WF (m : Mem) : Prop :=
  0 < m.nextAddr
  ∧ (∀ x ∈ m.mallocs, x.1 < m.nextAddr)
  ∧ (∀ a ∈ m.dataAllocs, a < m.nextAddr)

/-! ### Association-list heap lemmas -/

theorem lookupCell_store_ne (l : CellHeap) (a b v : Nat) (hab : a ≠ b) :
    lookupCell (storeCell l a v) b = lookupCell l b := by
  induction l with
  | nil => rfl
  | cons x rest ih =>
    obtain ⟨k, w⟩ := x
    by_cases hka : k = a
    · subst hka
      simp [storeCell, lookupCell, hab, ih]
    · simp [storeCell, lookupCell, hka, ih]

theorem lookupCell_store_self (l : CellHeap) (a v : Nat)
    (h : hasCell l a = true) : lookupCell (storeCell l a v) a = v := by
  induction l with
  | nil => simp [hasCell] at h
  | cons x rest ih =>
    obtain ⟨k, w⟩ := x
    by_cases hka : k = a
    · subst hka; simp [storeCell, lookupCell]
    · simp only [hasCell, if_neg hka] at h
      simp [storeCell, lookupCell, hka, ih h]

theorem lookupCell_free_ne (l : CellHeap) (a b : Nat) (hab : a ≠ b) :
    lookupCell (freeCell l a) b = lookupCell l b := by
  induction l with
  | nil => rfl
  | cons x rest ih =>
    obtain ⟨k, w⟩ := x
    by_cases hka : k = a
    · subst hka
      simp [freeCell, lookupCell, hab, ih]
    · simp [freeCell, lookupCell, hka, ih]

theorem hasCell_of_lookup_pos (l : CellHeap) (a : Nat)
    (h : 0 < lookupCell l a) : hasCell l a = true := by
  induction l with
  | nil => simp [lookupCell] at h
  | cons x rest ih =>
    obtain ⟨k, w⟩ := x
    by_cases hka : k = a
    · simp [hasCell, hka]
    · simp only [lookupCell, if_neg hka] at h
      simp [hasCell, hka, ih h]

theorem hasCell_free_self (l : CellHeap) (a : Nat) :
    hasCell (freeCell l a) a = false := by
  induction l with
  | nil => rfl
  | cons x rest ih =>
    obtain ⟨k, w⟩ := x
    by_cases hka : k = a <;> simp [freeCell, hasCell, hka, ih]

theorem hasCell_store (l : CellHeap) (a v b : Nat) :
    hasCell (storeCell l a v) b = hasCell l b := by
  induction l with
  | nil => rfl
  | cons x rest ih =>
    obtain ⟨k, w⟩ := x
    by_cases hka : k = a <;> simp [storeCell, hasCell, hka, ih]

theorem hasCell_false_of_ne (l : CellHeap) (a : Nat)
    (h : ∀ x ∈ l, x.1 ≠ a) : hasCell l a = false := by
  induction l with
  | nil => rfl
  | cons x rest ih =>
    obtain ⟨k, w⟩ := x
    have hk : k ≠ a := h (k, w) (by simp)
    simp [hasCell, hk, ih fun y hy => h y (by simp [hy])]

theorem storeCell_of_not_has (l : CellHeap) (a v : Nat)
    (h : hasCell l a = false) : storeCell l a v = l := by
  induction l with
  | nil => rfl
  | cons x rest ih =>
    obtain ⟨k, w⟩ := x
    by_cases hka : k = a
    · simp [hasCell, hka] at h
    · simp only [hasCell, if_neg hka] at h
      simp [storeCell, hka, ih h]

theorem freeCell_of_not_has (l : CellHeap) (a : Nat)
    (h : hasCell l a = false) : freeCell l a = l := by
  induction l with
  | nil => rfl
  | cons x rest ih =>
    obtain ⟨k, w⟩ := x
    by_cases hka : k = a
    · simp [hasCell, hka] at h
    · simp only [hasCell, if_neg hka] at h
      simp [freeCell, hka, ih h]

theorem freeCell_store (l : CellHeap) (a v : Nat) :
    freeCell (storeCell l a v) a = freeCell l a := by
  induction l with
  | nil => rfl
  | cons x rest ih =>
    obtain ⟨k, w⟩ := x
    by_cases hka : k = a <;> simp [storeCell, freeCell, hka, ih]

/-! ### refsTo lemmas -/

theorem refsTo_cons (p : Pointer) (hs : List Pointer) (c : Nat) :
    refsTo (p :: hs) c = if p._refs = c then refsTo hs c + 1 else refsTo hs c := by
  by_cases h : p._refs = c <;> simp [refsTo, List.filter, h]

theorem refsTo_perm {hs hs' : List Pointer} (h : hs.Perm hs') (c : Nat) :
    refsTo hs c = refsTo hs' c :=
  (h.filter _).length_eq

theorem refsTo_eq_zero (hs : List Pointer) (c : Nat)
    (h : ∀ q ∈ hs, q._refs ≠ c) : refsTo hs c = 0 := by
  induction hs with
  | nil => rfl
  | cons q rest ih =>
    rw [refsTo_cons]
    simp [h q (by simp)]
    exact ih fun r hr => h r (by simp [hr])

theorem refsTo_pos (hs : List Pointer) (q : Pointer) (c : Nat)
    (hq : q ∈ hs) (h : q._refs = c) : 1 ≤ refsTo hs c := by
  induction hs with
  | nil => simp at hq
  | cons r rest ih =>
    rw [refsTo_cons]
    rcases List.mem_cons.mp hq with h1 | h1
    · subst h1; simp [h]
    · by_cases hr : r._refs = c <;> simp [hr, ih h1]

/-! ### Mem-level heap lemmas -/

theorem Mem.lookup_store_ne (m : Mem) (a b v : Nat) (h : a ≠ b) :
    (m.store a v).lookup b = m.lookup b :=
  lookupCell_store_ne m.mallocs a b v h

theorem Mem.lookup_store_self (m : Mem) (a v : Nat)
    (h : hasCell m.mallocs a = true) : (m.store a v).lookup a = v :=
  lookupCell_store_self m.mallocs a v h

theorem Mem.lookup_free_ne (m : Mem) (a b : Nat) (h : a ≠ b) :
    (m.free a).lookup b = m.lookup b :=
  lookupCell_free_ne m.mallocs a b h

theorem Mem.lookup_deallocData (m : Mem) (a b : Nat) :
    (m.deallocData a).lookup b = m.lookup b := rfl

theorem Mem.nextAddr_store (m : Mem) (a v : Nat) :
    (m.store a v).nextAddr = m.nextAddr := rfl

theorem Mem.nextAddr_free (m : Mem) (a : Nat) :
    (m.free a).nextAddr = m.nextAddr := rfl

theorem Mem.nextAddr_deallocData (m : Mem) (a : Nat) :
    (m.deallocData a).nextAddr = m.nextAddr := rfl

/-! ### Branch elimination lemmas for the operations -/

theorem dec_ref_invalid (p : Pointer) (m : Mem) (h : p._data = 0) :
    p.dec_ref m = (p, m) := by
  simp [Pointer.dec_ref, Pointer.is_valid, h]

theorem dec_ref_valid_pos (p : Pointer) (m : Mem) (h : p._data ≠ 0)
    (h2 : m.lookup p._refs - 1 ≠ 0) :
    p.dec_ref m = (⟨0, 0⟩, m.store p._refs (m.lookup p._refs - 1)) := by
  simp [Pointer.dec_ref, Pointer.is_valid, h, h2]

theorem dec_ref_valid_zero (p : Pointer) (m : Mem) (h : p._data ≠ 0)
    (h2 : m.lookup p._refs - 1 = 0) :
    p.dec_ref m = (⟨0, 0⟩, ((m.store p._refs 0).deallocData p._data).free p._refs) := by
  simp [Pointer.dec_ref, Pointer.is_valid, h, h2]

theorem dec_ref_fst_data_zero (p : Pointer) (m : Mem) :
    (p.dec_ref m).1._data = 0 := by
  by_cases hv : p._data = 0
  · rw [dec_ref_invalid p m hv]; exact hv
  · by_cases hz : m.lookup p._refs - 1 = 0
    · rw [dec_ref_valid_zero p m hv hz]
    · rw [dec_ref_valid_pos p m hv hz]

theorem copyCtor_invalid (other : Pointer) (m : Mem) (h : other._refs = 0) :
    other.copyCtor m = (⟨other._refs, other._data⟩, m) := by
  simp [Pointer.copyCtor, h]

theorem copyCtor_valid (other : Pointer) (m : Mem) (h : other._refs ≠ 0) :
    other.copyCtor m =
      (⟨other._refs, other._data⟩,
       m.store other._refs (m.lookup other._refs + 1)) := by
  simp [Pointer.copyCtor, h]

/-! ### Invariant preservation, one lemma per operation -/

theorem inv_push_invalid (m : Mem) (hs : List Pointer) (h : MemInv m hs) :
    MemInv m (⟨0, 0⟩ :: hs) := by
  obtain ⟨h1, h2, h3⟩ := h
  refine ⟨h1, ?_, ?_⟩
  · intro p hp
    rcases List.mem_cons.mp hp with h' | h'
    · subst h'; exact h1
    · exact h2 p h'
  · intro p hp
    rcases List.mem_cons.mp hp with h' | h'
    · subst h'; right; exact ⟨rfl, rfl⟩
    · rcases h3 p h' with ⟨hr, hd, hle, heq⟩ | hinv
      · left
        refine ⟨hr, hd, hle, ?_⟩
        rw [refsTo_cons, if_neg (fun hc => hr hc.symm)]
        exact heq
      · right; exact hinv

theorem inv_perm (m : Mem) (hs hs' : List Pointer) (hp : hs.Perm hs')
    (h : MemInv m hs) : MemInv m hs' := by
  obtain ⟨h1, h2, h3⟩ := h
  refine ⟨h1, fun p hp' => h2 p (hp.mem_iff.mpr hp'), fun p hp' => ?_⟩
  have hg := h3 p (hp.mem_iff.mpr hp')
  unfold goodAt at hg ⊢
  rwa [refsTo_perm hp] at hg

theorem inv_mono (m m' : Mem) (hs : List Pointer) (h : MemInv m hs)
    (hl : ∀ c, c < m.nextAddr → m'.lookup c = m.lookup c)
    (hn : m.nextAddr ≤ m'.nextAddr) : MemInv m' hs := by
  obtain ⟨h1, h2, h3⟩ := h
  refine ⟨lt_of_lt_of_le h1 hn, fun p hp => lt_of_lt_of_le (h2 p hp) hn,
    fun p hp => ?_⟩
  rcases h3 p hp with ⟨hr, hd, hle, heq⟩ | hinv
  · left
    rw [hl p._refs (h2 p hp)]
    exact ⟨hr, hd, hle, heq⟩
  · right; exact hinv

theorem inv_destroy (m : Mem) (hs : List Pointer) (p : Pointer)
    (h : MemInv m (p :: hs)) : MemInv (p.dec_ref m).2 hs := by
  obtain ⟨h1, h2, h3⟩ := h
  by_cases hv : p._data = 0
  · rw [dec_ref_invalid p m hv]
    have hp0 : p._refs = 0 := by
      rcases h3 p (by simp) with ⟨_, hd, _, _⟩ | ⟨hr, _⟩
      · exact absurd hv hd
      · exact hr
    refine ⟨h1, fun q hq => h2 q (by simp [hq]), fun q hq => ?_⟩
    rcases h3 q (by simp [hq]) with ⟨hr, hd, hle, heq⟩ | hinv
    · left
      refine ⟨hr, hd, hle, ?_⟩
      rw [refsTo_cons, if_neg (by rw [hp0]; exact fun hc => hr hc.symm)] at heq
      exact heq
    · right; exact hinv
  · rcases h3 p (by simp) with ⟨hr, _, hle, heq⟩ | ⟨_, hd0⟩
    swap
    · exact absurd hd0 hv
    have hrt : m.lookup p._refs = refsTo hs p._refs + 1 := by
      rw [heq, refsTo_cons, if_pos rfl]
    have hcell : hasCell m.mallocs p._refs = true :=
      hasCell_of_lookup_pos _ _ (lt_of_lt_of_le Nat.zero_lt_one hle)
    by_cases hz : m.lookup p._refs - 1 = 0
    · -- the count drops to zero: the buffer and the cell are freed
      have hrt0 : refsTo hs p._refs = 0 := by omega
      rw [dec_ref_valid_zero p m hv hz]
      refine ⟨h1, fun q hq => h2 q (by simp [hq]), fun q hq => ?_⟩
      rcases h3 q (by simp [hq]) with ⟨hqr, hqd, hqle, hqeq⟩ | hinv
      · left
        have hqc : q._refs ≠ p._refs := by
          intro hcontra
          have := refsTo_pos hs q p._refs hq hcontra
          omega
        rw [Mem.lookup_free_ne _ _ _ (fun hx => hqc hx.symm),
          Mem.lookup_deallocData,
          Mem.lookup_store_ne _ _ _ _ (fun hx => hqc hx.symm)]
        refine ⟨hqr, hqd, hqle, ?_⟩
        rw [refsTo_cons, if_neg (fun hc => hqc hc.symm)] at hqeq
        exact hqeq
      · right; exact hinv
    · -- the count stays positive: only the counter value changes
      rw [dec_ref_valid_pos p m hv hz]
      refine ⟨h1, fun q hq => h2 q (by simp [hq]), fun q hq => ?_⟩
      rcases h3 q (by simp [hq]) with ⟨hqr, hqd, hqle, hqeq⟩ | hinv
      · left
        refine ⟨hqr, hqd, ?_, ?_⟩
        · by_cases hqc : q._refs = p._refs
          · rw [hqc, Mem.lookup_store_self _ _ _ hcell]; omega
          · rw [Mem.lookup_store_ne _ _ _ _ (fun hx => hqc hx.symm)]
            exact hqle
        · by_cases hqc : q._refs = p._refs
          · rw [hqc, Mem.lookup_store_self _ _ _ hcell]
            rw [refsTo_cons, if_pos hqc.symm] at hqeq
            rw [hqc] at hqeq
            omega
          · rw [Mem.lookup_store_ne _ _ _ _ (fun hx => hqc hx.symm)]
            rw [refsTo_cons, if_neg (fun hc => hqc hc.symm)] at hqeq
            exact hqeq
      · right; exact hinv

theorem goodAt_transfer (m : Mem) (hs hs' : List Pointer) (p q : Pointer)
    (hpq : p._refs = q._refs) (hpd : p._data = q._data)
    (hrt : ∀ c, c ≠ 0 → refsTo hs' c = refsTo hs c)
    (h : goodAt m hs p) : goodAt m hs' q := by
  rcases h with ⟨hr, hd, hle, heq⟩ | ⟨hr, hd⟩
  · left
    refine ⟨hpq ▸ hr, hpd ▸ hd, hpq ▸ hle, ?_⟩
    rw [← hpq, hrt _ hr]
    exact heq
  · right
    exact ⟨hpq ▸ hr, hpd ▸ hd⟩

theorem inv_copyCtor (m : Mem) (hs : List Pointer) (other : Pointer)
    (h : MemInv m (other :: hs)) :
    MemInv (other.copyCtor m).2 ((other.copyCtor m).1 :: other :: hs) := by
  obtain ⟨h1, h2, h3⟩ := h
  by_cases h0 : other._refs = 0
  · have hd0 : other._data = 0 := by
      rcases h3 other (by simp) with ⟨hr, _, _, _⟩ | ⟨_, hd⟩
      · exact absurd h0 hr
      · exact hd
    rw [copyCtor_invalid other m h0]
    have he : (⟨other._refs, other._data⟩ : Pointer) = ⟨0, 0⟩ := by
      rw [h0, hd0]
    rw [he]
    exact inv_push_invalid m (other :: hs) ⟨h1, h2, h3⟩
  · rcases h3 other (by simp) with ⟨_, hdo, hle, heq⟩ | ⟨hr0, _⟩
    swap
    · exact absurd hr0 h0
    rw [copyCtor_valid other m h0]
    have hcell : hasCell m.mallocs other._refs = true :=
      hasCell_of_lookup_pos _ _ (lt_of_lt_of_le Nat.zero_lt_one hle)
    have hnew : refsTo ((⟨other._refs, other._data⟩ : Pointer) :: other :: hs)
        other._refs = refsTo (other :: hs) other._refs + 1 := by
      rw [refsTo_cons]; simp
    refine ⟨h1, ?_, ?_⟩
    · intro q hq
      rcases List.mem_cons.mp hq with h' | h'
      · subst h'
        exact h2 other (by simp)
      · exact h2 q h'
    · intro q hq
      rcases List.mem_cons.mp hq with h' | h'
      · subst h'
        left
        refine ⟨h0, hdo, ?_, ?_⟩
        · rw [Mem.lookup_store_self _ _ _ hcell]; omega
        · rw [Mem.lookup_store_self _ _ _ hcell, hnew, heq]
      · rcases h3 q h' with ⟨hqr, hqd, hqle, hqeq⟩ | hinv
        · left
          refine ⟨hqr, hqd, ?_, ?_⟩
          · by_cases hqc : q._refs = other._refs
            · rw [hqc, Mem.lookup_store_self _ _ _ hcell]; omega
            · rw [Mem.lookup_store_ne _ _ _ _ (fun hx => hqc hx.symm)]
              exact hqle
          · by_cases hqc : q._refs = other._refs
            · rw [hqc, Mem.lookup_store_self _ _ _ hcell, hnew]
              rw [hqc] at hqeq
              omega
            · rw [Mem.lookup_store_ne _ _ _ _ (fun hx => hqc hx.symm)]
              rw [refsTo_cons, if_neg (fun hc => hqc hc.symm)]
              exact hqeq
        · right; exact hinv

theorem inv_moveCtor (m : Mem) (hs : List Pointer) (other : Pointer)
    (h : MemInv m (other :: hs)) :
    MemInv m (other.moveCtor.1 :: other.moveCtor.2 :: hs) := by
  obtain ⟨h1, h2, h3⟩ := h
  simp only [Pointer.moveCtor]
  have hrt : ∀ c, c ≠ 0 →
      refsTo ((⟨other._refs, other._data⟩ : Pointer) :: (⟨0, 0⟩ : Pointer) :: hs) c
        = refsTo (other :: hs) c := by
    intro c hc
    have h2' : refsTo ((⟨0, 0⟩ : Pointer) :: hs) c = refsTo hs c := by
      rw [refsTo_cons,
        if_neg (show ¬((⟨0, 0⟩ : Pointer)._refs = c) from fun hx => hc hx.symm)]
    rw [refsTo_cons, h2', refsTo_cons]
  refine ⟨h1, ?_, ?_⟩
  · intro q hq
    rcases List.mem_cons.mp hq with h' | h'
    · subst h'; exact h2 other (by simp)
    · rcases List.mem_cons.mp h' with h'' | h''
      · subst h''; exact h1
      · exact h2 q (by simp [h''])
  · intro q hq
    rcases List.mem_cons.mp hq with h' | h'
    · subst h'
      exact goodAt_transfer m (other :: hs) _ other _ rfl rfl hrt
        (h3 other (by simp))
    · rcases List.mem_cons.mp h' with h'' | h''
      · subst h''; right; exact ⟨rfl, rfl⟩
      · exact goodAt_transfer m (other :: hs) _ q q rfl rfl hrt
          (h3 q (by simp [h'']))

/-! ### Closed forms for the two constructors -/

theorem ctorLen_ok (tSize : Nat) (m : Mem) (len : Nat) (hA : m.nextAddr ≠ 0) :
    Pointer.ctorLen tSize m len true true =
      (.ok ⟨m.nextAddr, m.nextAddr + 1⟩,
       ⟨m.nextAddr + 1 + 1,
        (m.nextAddr, 1) :: storeCell m.mallocs m.nextAddr 1,
        (m.nextAddr + 1) :: m.dataAllocs,
        m.allocCount + 1, m.deallocCount, m.allocatedSize + len * tSize⟩) := by
  simp [Pointer.ctorLen, Mem.malloc, Mem.allocData, Mem.store, storeCell, hA]

theorem ctorLen_err_ff (tSize : Nat) (m : Mem) (len : Nat) :
    Pointer.ctorLen tSize m len false false =
      (.error .bad_alloc,
       ⟨m.nextAddr, m.mallocs, m.dataAllocs,
        m.allocCount + 1, m.deallocCount, m.allocatedSize + len * tSize⟩) := by
  simp [Pointer.ctorLen, Mem.malloc, Mem.allocData]

theorem ctorLen_err_ft (tSize : Nat) (m : Mem) (len : Nat) :
    Pointer.ctorLen tSize m len false true =
      (.error .bad_alloc,
       ⟨m.nextAddr + 1, m.mallocs, m.nextAddr :: m.dataAllocs,
        m.allocCount + 1, m.deallocCount, m.allocatedSize + len * tSize⟩) := by
  simp [Pointer.ctorLen, Mem.malloc, Mem.allocData]

theorem ctorLen_err_tf (tSize : Nat) (m : Mem) (len : Nat) :
    Pointer.ctorLen tSize m len true false =
      (.error .bad_alloc,
       ⟨m.nextAddr + 1, (m.nextAddr, 0) :: m.mallocs, m.dataAllocs,
        m.allocCount + 1, m.deallocCount, m.allocatedSize + len * tSize⟩) := by
  simp [Pointer.ctorLen, Mem.malloc, Mem.allocData]

theorem ctorData_eq_ctorLen (tSize : Nat) (m : Mem) (src len : Nat)
    (mOk aOk : Bool) (hsrc : src ≠ 0) :
    Pointer.ctorData tSize m src len mOk aOk =
      Pointer.ctorLen tSize m len mOk aOk := by
  cases mOk <;> cases aOk <;>
    simp [Pointer.ctorData, Pointer.ctorLen, Mem.malloc, Mem.allocData, hsrc]

theorem ctorData_null_isErr (tSize : Nat) (m : Mem) (len : Nat) (mOk aOk : Bool)
    (p : Pointer) (m' : Mem) :
    Pointer.ctorData tSize m 0 len mOk aOk ≠ (.ok p, m') := by
  intro hcontra
  cases mOk <;> cases aOk <;>
    by_cases hA : m.nextAddr = 0 <;>
    simp [Pointer.ctorData, Mem.malloc, Mem.allocData, hA] at hcontra

theorem ctorData_eq_ctorLen_ff (tSize : Nat) (m : Mem) (src len : Nat) :
    Pointer.ctorData tSize m src len false false =
      Pointer.ctorLen tSize m len false false := by
  simp [Pointer.ctorData, Pointer.ctorLen, Mem.malloc, Mem.allocData]

theorem ctorData_eq_ctorLen_ft (tSize : Nat) (m : Mem) (src len : Nat) :
    Pointer.ctorData tSize m src len false true =
      Pointer.ctorLen tSize m len false true := by
  simp [Pointer.ctorData, Pointer.ctorLen, Mem.malloc, Mem.allocData]

theorem ctorData_eq_ctorLen_tf (tSize : Nat) (m : Mem) (src len : Nat) :
    Pointer.ctorData tSize m src len true false =
      Pointer.ctorLen tSize m len true false := by
  simp [Pointer.ctorData, Pointer.ctorLen, Mem.malloc, Mem.allocData]

theorem ctorData_eq_ctorLen_ttA0 (tSize : Nat) (m : Mem) (src len : Nat)
    (hA : m.nextAddr = 0) :
    Pointer.ctorData tSize m src len true true =
      Pointer.ctorLen tSize m len true true := by
  simp [Pointer.ctorData, Pointer.ctorLen, Mem.malloc, Mem.allocData, hA]

theorem ctorData_null_spec (tSize : Nat) (m : Mem) (len : Nat)
    (hA : m.nextAddr ≠ 0) :
    (Pointer.ctorData tSize m 0 len true true).1 = .error .invalid_argument
  ∧ (Pointer.ctorData tSize m 0 len true true).2.nextAddr = m.nextAddr + 1 + 1
  ∧ (Pointer.ctorData tSize m 0 len true true).2.mallocs
      = freeCell (storeCell (storeCell m.mallocs m.nextAddr 1) m.nextAddr 0)
          m.nextAddr
  ∧ (Pointer.ctorData tSize m 0 len true true).2.dataAllocs
      = m.dataAllocs.filter (fun x => x ≠ m.nextAddr + 1)
  ∧ (Pointer.ctorData tSize m 0 len true true).2.allocCount = m.allocCount + 1
  ∧ (Pointer.ctorData tSize m 0 len true true).2.deallocCount
      = m.deallocCount + 1
  ∧ (Pointer.ctorData tSize m 0 len true true).2.allocatedSize
      = m.allocatedSize + len * tSize := by
  simp [Pointer.ctorData, Pointer.dec_ref, Pointer.is_valid, Mem.malloc,
    Mem.allocData, Mem.store, Mem.lookup, Mem.deallocData, Mem.free,
    lookupCell, storeCell, freeCell, hA]

/-! ### Invariant preservation for the constructors -/

theorem inv_ctorLen_ok (tSize : Nat) (m : Mem) (hs : List Pointer) (len : Nat)
    (mOk aOk : Bool) (p : Pointer) (m' : Mem)
    (h : Pointer.ctorLen tSize m len mOk aOk = (.ok p, m'))
    (hw : MemInv m hs) : MemInv m' (p :: hs) := by
  obtain ⟨h1, h2, h3⟩ := hw
  have hA : m.nextAddr ≠ 0 := by omega
  cases mOk <;> cases aOk
  · rw [ctorLen_err_ff] at h; simp at h
  · rw [ctorLen_err_ft] at h; simp at h
  · rw [ctorLen_err_tf] at h; simp at h
  · rw [ctorLen_ok tSize m len hA] at h
    injection h with h4 h5
    injection h4 with h4
    subst h4
    subst h5
    have hfresh : ∀ q ∈ hs, q._refs ≠ m.nextAddr := by
      intro q hq hcontra
      have := h2 q hq
      omega
    have hrt0 : refsTo hs m.nextAddr = 0 := refsTo_eq_zero hs m.nextAddr hfresh
    refine ⟨?_, ?_, ?_⟩
    · show 0 < m.nextAddr + 1 + 1
      omega
    · intro q hq
      rcases List.mem_cons.mp hq with h' | h'
      · subst h'
        show m.nextAddr < m.nextAddr + 1 + 1
        omega
      · have := h2 q h'
        show q._refs < m.nextAddr + 1 + 1
        omega
    · intro q hq
      have hlA : lookupCell ((m.nextAddr, 1) :: storeCell m.mallocs m.nextAddr 1)
          m.nextAddr = 1 := by
        simp [lookupCell]
      have hlne : ∀ c, c ≠ m.nextAddr →
          lookupCell ((m.nextAddr, 1) :: storeCell m.mallocs m.nextAddr 1) c
            = m.lookup c := by
        intro c hc
        rw [lookupCell, if_neg (fun hx => hc hx.symm)]
        exact lookupCell_store_ne m.mallocs m.nextAddr c 1
          (fun hx => hc hx.symm)
      rcases List.mem_cons.mp hq with h' | h'
      · subst h'
        left
        refine ⟨hA, show m.nextAddr + 1 ≠ 0 by omega, ?_, ?_⟩
        · show 1 ≤ lookupCell ((m.nextAddr, 1) :: storeCell m.mallocs m.nextAddr 1)
              m.nextAddr
          rw [hlA]
        · show lookupCell ((m.nextAddr, 1) :: storeCell m.mallocs m.nextAddr 1)
              m.nextAddr
            = refsTo ((⟨m.nextAddr, m.nextAddr + 1⟩ : Pointer) :: hs) m.nextAddr
          rw [hlA, refsTo_cons, if_pos rfl, hrt0]
      · rcases h3 q h' with ⟨hqr, hqd, hqle, hqeq⟩ | hinv
        · left
          have hqc : q._refs ≠ m.nextAddr := hfresh q h'
          refine ⟨hqr, hqd, ?_, ?_⟩
          · show 1 ≤ lookupCell ((m.nextAddr, 1) :: storeCell m.mallocs m.nextAddr 1)
                q._refs
            rw [hlne _ hqc]
            exact hqle
          · show lookupCell ((m.nextAddr, 1) :: storeCell m.mallocs m.nextAddr 1)
                q._refs
              = refsTo ((⟨m.nextAddr, m.nextAddr + 1⟩ : Pointer) :: hs) q._refs
            rw [hlne _ hqc, refsTo_cons,
              if_neg (show ¬((⟨m.nextAddr, m.nextAddr + 1⟩ : Pointer)._refs = q._refs)
                from fun hx => hqc hx.symm)]
            exact hqeq
        · right; exact hinv

theorem inv_ctorLen_err (tSize : Nat) (m : Mem) (hs : List Pointer) (len : Nat)
    (mOk aOk : Bool) (e : Err) (m' : Mem)
    (h : Pointer.ctorLen tSize m len mOk aOk = (.error e, m'))
    (hw : MemInv m hs) : MemInv m' hs := by
  have hA : m.nextAddr ≠ 0 := by
    obtain ⟨h1, -, -⟩ := hw
    omega
  cases mOk <;> cases aOk
  · rw [ctorLen_err_ff] at h
    injection h with h4 h5
    subst h5
    exact inv_mono m _ hs hw (fun c hc => rfl) (Nat.le_of_eq rfl)
  · rw [ctorLen_err_ft] at h
    injection h with h4 h5
    subst h5
    exact inv_mono m _ hs hw (fun c hc => rfl) (Nat.le_succ _)
  · rw [ctorLen_err_tf] at h
    injection h with h4 h5
    subst h5
    refine inv_mono m _ hs hw (fun c hc => ?_) (Nat.le_succ _)
    show lookupCell ((m.nextAddr, 0) :: m.mallocs) c = m.lookup c
    rw [lookupCell, if_neg (by omega)]
    rfl
  · rw [ctorLen_ok tSize m len hA] at h
    simp at h

theorem inv_ctorData_ok (tSize : Nat) (m : Mem) (hs : List Pointer)
    (src len : Nat) (mOk aOk : Bool) (p : Pointer) (m' : Mem)
    (h : Pointer.ctorData tSize m src len mOk aOk = (.ok p, m'))
    (hw : MemInv m hs) : MemInv m' (p :: hs) := by
  by_cases hsrc : src = 0
  · subst hsrc
    exact absurd h (ctorData_null_isErr tSize m len mOk aOk p m')
  · rw [ctorData_eq_ctorLen tSize m src len mOk aOk hsrc] at h
    exact inv_ctorLen_ok tSize m hs len mOk aOk p m' h hw

theorem inv_ctorData_err (tSize : Nat) (m : Mem) (hs : List Pointer)
    (src len : Nat) (mOk aOk : Bool) (e : Err) (m' : Mem)
    (h : Pointer.ctorData tSize m src len mOk aOk = (.error e, m'))
    (hw : MemInv m hs) : MemInv m' hs := by
  by_cases hsrc : src = 0
  · subst hsrc
    cases mOk <;> cases aOk
    · rw [ctorData_eq_ctorLen_ff] at h
      exact inv_ctorLen_err tSize m hs len false false e m' h hw
    · rw [ctorData_eq_ctorLen_ft] at h
      exact inv_ctorLen_err tSize m hs len false true e m' h hw
    · rw [ctorData_eq_ctorLen_tf] at h
      exact inv_ctorLen_err tSize m hs len true false e m' h hw
    · by_cases hA : m.nextAddr = 0
      · rw [ctorData_eq_ctorLen_ttA0 tSize m 0 len hA] at h
        exact inv_ctorLen_err tSize m hs len true true e m' h hw
      · obtain ⟨hn1, hn2, hn3, hn4, hn5, hn6, hn7⟩ :=
          ctorData_null_spec tSize m len hA
        have hm' : m' = (Pointer.ctorData tSize m 0 len true true).2 := by
          rw [h]
        subst hm'
        refine inv_mono m _ hs hw (fun c hc => ?_) ?_
        · have hrw : (Pointer.ctorData tSize m 0 len true true).2.lookup c
              = lookupCell (freeCell (storeCell (storeCell m.mallocs
                  m.nextAddr 1) m.nextAddr 0) m.nextAddr) c := by
            rw [Mem.lookup, hn3]
          rw [hrw, lookupCell_free_ne _ _ _ (by omega),
            lookupCell_store_ne _ _ _ _ (by omega),
            lookupCell_store_ne _ _ _ _ (by omega)]
          rfl
        · rw [hn2]
          omega
  · rw [ctorData_eq_ctorLen tSize m src len mOk aOk hsrc] at h
    exact inv_ctorLen_err tSize m hs len mOk aOk e m' h hw

theorem inv_copyAssign (m : Mem) (hs : List Pointer) (p other : Pointer)
    (h : MemInv m (p :: other :: hs)) :
    MemInv (p.copyAssign other m).2 ((p.copyAssign other m).1 :: other :: hs) := by
  have h1 : MemInv (p.dec_ref m).2 (other :: hs) := inv_destroy m (other :: hs) p h
  by_cases h0 : other._refs = 0
  · have hres : p.copyAssign other m = (⟨0, 0⟩, (p.dec_ref m).2) := by
      simp [Pointer.copyAssign, h0, dec_ref_fst_data_zero]
    rw [hres]
    exact inv_push_invalid _ _ h1
  · have hres : p.copyAssign other m = other.copyCtor (p.dec_ref m).2 := by
      rw [copyCtor_valid other _ h0]
      simp [Pointer.copyAssign, h0]
    rw [hres]
    exact inv_copyCtor _ hs other h1

theorem inv_moveAssign (m : Mem) (hs : List Pointer) (p other : Pointer)
    (h : MemInv m (p :: other :: hs)) :
    MemInv (p.moveAssign other m).2.2
      ((p.moveAssign other m).1 :: (p.moveAssign other m).2.1 :: hs) := by
  have h1 : MemInv (p.dec_ref m).2 (other :: hs) := inv_destroy m (other :: hs) p h
  have h2 := inv_moveCtor (p.dec_ref m).2 hs other h1
  simpa [Pointer.moveAssign, Pointer.moveCtor] using h2

theorem inv_step {w w' : World} (h : Step w w') (hw : WorldInv w) : WorldInv w' := by
  cases h with
  | defaultCtor m hs => exact inv_push_invalid m hs hw
  | ctorLenOk tSize m hs len mOk aOk p m' h =>
      exact inv_ctorLen_ok tSize m hs len mOk aOk p m' h hw
  | ctorLenErr tSize m hs len mOk aOk e m' h =>
      exact inv_ctorLen_err tSize m hs len mOk aOk e m' h hw
  | ctorDataOk tSize m hs src len mOk aOk p m' h =>
      exact inv_ctorData_ok tSize m hs src len mOk aOk p m' h hw
  | ctorDataErr tSize m hs src len mOk aOk e m' h =>
      exact inv_ctorData_err tSize m hs src len mOk aOk e m' h hw
  | copyCtor m hs other => exact inv_copyCtor m hs other hw
  | moveCtor m hs other => exact inv_moveCtor m hs other hw
  | copyAssign m hs p other => exact inv_copyAssign m hs p other hw
  | moveAssign m hs p other => exact inv_moveAssign m hs p other hw
  | destroy m hs p => exact inv_destroy m hs p hw
  | perm m hs hs' h => exact inv_perm m hs hs' h hw

theorem inv_init : WorldInv World.init := by
  refine ⟨Nat.one_pos, ?_, ?_⟩ <;> intro p hp <;> exact absurd hp (List.not_mem_nil p)

/-! ### Observable-level helper lemmas -/

theorem get_ref_count_valid (p : Pointer) (m : Mem) (h : p._data ≠ 0) :
    p.get_ref_count m = m.lookup p._refs := by
  simp [Pointer.get_ref_count, Pointer.is_valid, h]

theorem get_ref_count_invalid (p : Pointer) (m : Mem) (h : p._data = 0) :
    p.get_ref_count m = 0 := by
  simp [Pointer.get_ref_count, Pointer.is_valid, h]

theorem is_valid_false_iff (p : Pointer) : p.is_valid = false ↔ p._data = 0 := by
  simp [Pointer.is_valid]

theorem dec_ref_lookup_other (d : Pointer) (m : Mem) (c : Nat) (h : d._refs ≠ c) :
    (d.dec_ref m).2.lookup c = m.lookup c := by
  by_cases hv : d._data = 0
  · rw [dec_ref_invalid d m hv]
  · by_cases hz : m.lookup d._refs - 1 = 0
    · rw [dec_ref_valid_zero d m hv hz, Mem.lookup_free_ne _ _ _ h,
        Mem.lookup_deallocData, Mem.lookup_store_ne _ _ _ _ h]
    · rw [dec_ref_valid_pos d m hv hz, Mem.lookup_store_ne _ _ _ _ h]

theorem ctorLen_ok_shape (tSize : Nat) (m : Mem) (len : Nat) (mOk aOk : Bool)
    (p : Pointer) (m' : Mem)
    (h : Pointer.ctorLen tSize m len mOk aOk = (.ok p, m')) :
    p._refs = m.nextAddr ∧ p._data = m.nextAddr + 1
      ∧ m'.nextAddr = m.nextAddr + 1 + 1 ∧ m.nextAddr ≠ 0 := by
  cases mOk <;> cases aOk
  · rw [ctorLen_err_ff] at h; simp at h
  · rw [ctorLen_err_ft] at h; simp at h
  · rw [ctorLen_err_tf] at h; simp at h
  · by_cases hA : m.nextAddr = 0
    · simp [Pointer.ctorLen, Mem.malloc, Mem.allocData, hA] at h
    · rw [ctorLen_ok tSize m len hA] at h
      injection h with h4 h5
      injection h4 with h4
      subst h4
      subst h5
      exact ⟨rfl, rfl, rfl, hA⟩

theorem memInit_WF : Mem.init.WF :=
  ⟨Nat.one_pos, by simp [Mem.init], by simp [Mem.init]⟩

/-! ### The claims -/

/-- C1: every handle reachable through the public operations (default/length/
from-data construction, copy/move construction and assignment, destruction),
under the contract that the injected allocator raises on failure and never
returns null, is either fully valid — counter pointer and data pointer both
non-null, counter value at least 1 and equal to the number of live handles
currently referencing that counter cell — or fully invalid (both pointers
null); every operation preserves this predicate. -/
theorem c1_handle_validity_invariant (w : World) (h : Reachable w) :
    WorldInv w := by
  induction h with
  | refl => exact inv_init
  | tail hab hbc ih => exact inv_step hbc ih

/-- Witness for C1: the invariant holds for the world reached by one
successful length-construction from the initial world. -/
theorem c1_handle_validity_invariant_witness :
    WorldInv ⟨⟨3, [(1, 1)], [2], 1, 0, 12⟩, [⟨1, 2⟩]⟩ :=
  c1_handle_validity_invariant _
    (Relation.ReflTransGen.tail Relation.ReflTransGen.refl
      (Step.ctorLenOk 4 Mem.init [] 3 true true ⟨1, 2⟩
        ⟨3, [(1, 1)], [2], 1, 0, 12⟩ rfl))

/-- C2 (code evaluated at the failing inputs): when the counter cell is
allocated but the injected allocator raises, the constructor propagates the
error with the counter cell still live (leaked, nothing released); when the
counter-cell `malloc` fails but the injected allocator succeeded, the data
buffer is still live and the deallocator was never called.  The from-data
constructor leaks identically. -/
theorem c2_partial_construction_leaks :
    ((Pointer.ctorLen 4 Mem.init 1 true false).1 = .error .bad_alloc
      ∧ (Pointer.ctorLen 4 Mem.init 1 true false).2.mallocs = [(1, 0)]
      ∧ (Pointer.ctorLen 4 Mem.init 1 true false).2.deallocCount = 0)
  ∧ ((Pointer.ctorLen 4 Mem.init 1 false true).1 = .error .bad_alloc
      ∧ (Pointer.ctorLen 4 Mem.init 1 false true).2.dataAllocs = [1]
      ∧ (Pointer.ctorLen 4 Mem.init 1 false true).2.deallocCount = 0)
  ∧ ((Pointer.ctorData 4 Mem.init 7 1 true false).2.mallocs = [(1, 0)]
      ∧ (Pointer.ctorData 4 Mem.init 7 1 false true).2.dataAllocs = [1]) :=
  ⟨⟨rfl, rfl, rfl⟩, ⟨rfl, rfl, rfl⟩, rfl, rfl⟩

/-- C3 (code evaluated at the failing input): `default_allocator` has no
return statement, so on every path where the underlying `malloc` succeeds the
function returns without producing the allocated address (`none`), and no call
ever returns an allocated address. -/
theorem c3_default_allocator_returns_no_address :
    ((default_allocator Mem.init 8 true).1 = .ok none)
  ∧ (∀ (m : Mem) (size : Nat), 0 < m.nextAddr →
      (default_allocator m size true).1 = .ok none)
  ∧ (∀ (m : Mem) (size : Nat) (ok : Bool) (a : Nat),
      (default_allocator m size ok).1 ≠ .ok (some a)) := by
  refine ⟨rfl, ?_, ?_⟩
  · intro m size h
    have hA : m.nextAddr ≠ 0 := by omega
    simp [default_allocator, Mem.malloc, hA]
  · intro m size ok a
    cases ok <;> by_cases hA : m.nextAddr = 0 <;>
      simp [default_allocator, Mem.malloc, hA]

/-- Witness for C3 at a concrete allocation request. -/
theorem c3_default_allocator_returns_no_address_witness :
    (default_allocator Mem.init 16 true).1 = .ok none
  ∧ (default_allocator Mem.init 16 true).1 ≠ .ok (some 1) :=
  ⟨c3_default_allocator_returns_no_address.2.1 Mem.init 16 (by decide),
   c3_default_allocator_returns_no_address.2.2 Mem.init 16 true 1⟩

/-- C4: for every valid handle with reference count `n`, copy construction
(and copy assignment into a destination not already sharing the source's
counter cell) yields count `n + 1` observed through both the source and the
copy; move construction (and move assignment into such a destination) leaves
the destination at count `n`, the source invalid, and the source's reported
reference count 0. -/
theorem c4_copy_increments_move_transfers (m : Mem) (p d : Pointer) (n : Nat)
    (hv : p._data ≠ 0) (hr : p._refs ≠ 0)
    (hn : m.lookup p._refs = n) (hpos : 0 < n)
    (hd : d._refs ≠ p._refs) :
    ((p.copyCtor m).1.get_ref_count (p.copyCtor m).2 = n + 1
      ∧ p.get_ref_count (p.copyCtor m).2 = n + 1)
  ∧ ((d.copyAssign p m).1.get_ref_count (d.copyAssign p m).2 = n + 1
      ∧ p.get_ref_count (d.copyAssign p m).2 = n + 1)
  ∧ (p.moveCtor.1.get_ref_count m = n
      ∧ p.moveCtor.2.is_valid = false
      ∧ p.moveCtor.2.get_ref_count m = 0)
  ∧ ((d.moveAssign p m).1.get_ref_count (d.moveAssign p m).2.2 = n
      ∧ (d.moveAssign p m).2.1.is_valid = false
      ∧ (d.moveAssign p m).2.1.get_ref_count (d.moveAssign p m).2.2 = 0) := by
  have hcell : hasCell m.mallocs p._refs = true :=
    hasCell_of_lookup_pos _ _ (show 0 < m.lookup p._refs by omega)
  have hlk : (m.store p._refs (m.lookup p._refs + 1)).lookup p._refs = n + 1 := by
    rw [Mem.lookup_store_self _ _ _ hcell, hn]
  refine ⟨?_, ?_, ?_, ?_⟩
  · rw [copyCtor_valid p m hr]
    exact ⟨by rw [get_ref_count_valid _ _ hv]; exact hlk,
      by rw [get_ref_count_valid _ _ hv]; exact hlk⟩
  · have hres : d.copyAssign p m = p.copyCtor (d.dec_ref m).2 := by
      rw [copyCtor_valid p _ hr]
      simp [Pointer.copyAssign, hr]
    have hlk1 : (d.dec_ref m).2.lookup p._refs = n := by
      rw [dec_ref_lookup_other d m p._refs hd, hn]
    have hcell1 : hasCell (d.dec_ref m).2.mallocs p._refs = true :=
      hasCell_of_lookup_pos _ _ (show 0 < (d.dec_ref m).2.lookup p._refs by omega)
    rw [hres, copyCtor_valid p _ hr]
    exact ⟨by rw [get_ref_count_valid _ _ hv, Mem.lookup_store_self _ _ _ hcell1, hlk1],
      by rw [get_ref_count_valid _ _ hv, Mem.lookup_store_self _ _ _ hcell1, hlk1]⟩
  · refine ⟨?_, rfl, rfl⟩
    show p.get_ref_count m = n
    rw [get_ref_count_valid _ _ hv]
    exact hn
  · refine ⟨?_, rfl, rfl⟩
    show p.get_ref_count (d.dec_ref m).2 = n
    rw [get_ref_count_valid _ _ hv]
    exact (dec_ref_lookup_other d m p._refs hd).trans hn

/-- Witness for C4 on a one-owner handle. -/
theorem c4_copy_increments_move_transfers_witness :
    (Pointer.copyCtor ⟨1, 2⟩ ⟨3, [(1, 1)], [2], 1, 0, 8⟩).1.get_ref_count
        (Pointer.copyCtor ⟨1, 2⟩ ⟨3, [(1, 1)], [2], 1, 0, 8⟩).2 = 2
  ∧ (Pointer.moveAssign ⟨0, 0⟩ ⟨1, 2⟩
        ⟨3, [(1, 1)], [2], 1, 0, 8⟩).2.1.is_valid = false := by
  have h := c4_copy_increments_move_transfers ⟨3, [(1, 1)], [2], 1, 0, 8⟩
    ⟨1, 2⟩ ⟨0, 0⟩ 1 (by decide) (by decide) (by decide) (by decide) (by decide)
  exact ⟨h.1.1, h.2.2.2.2.1⟩

/-- C5: destroying/invalidating a valid handle with counter value `n` nulls
both fields; exactly when the counter reaches zero it frees the data buffer
through the injected deallocator and the counter cell through the default
mechanism, and otherwise only decrements the counter; on an invalid handle it
is a no-op, and a second invocation on the result changes nothing.  The
embedding of `dec_ref` is a total function into `Pointer × Mem` with no error
outcome, matching its `noexcept` contract. -/
theorem c5_destroy_decrements_and_frees_at_zero (m : Mem) (p : Pointer)
    (n : Nat) (hv : p._data ≠ 0) (hn : m.lookup p._refs = n) (hpos : 0 < n) :
    ((p.dec_ref m).1._refs = 0 ∧ (p.dec_ref m).1._data = 0
      ∧ (p.dec_ref m).1.is_valid = false)
  ∧ (n = 1 →
      hasCell (p.dec_ref m).2.mallocs p._refs = false
      ∧ (p.dec_ref m).2.dataAllocs = m.dataAllocs.filter (fun x => x ≠ p._data)
      ∧ (p.dec_ref m).2.deallocCount = m.deallocCount + 1)
  ∧ (1 < n →
      (p.dec_ref m).2.lookup p._refs = n - 1
      ∧ hasCell (p.dec_ref m).2.mallocs p._refs = true
      ∧ (p.dec_ref m).2.dataAllocs = m.dataAllocs
      ∧ (p.dec_ref m).2.deallocCount = m.deallocCount)
  ∧ (∀ q : Pointer, q._data = 0 → q.dec_ref m = (q, m))
  ∧ ((p.dec_ref m).1.dec_ref (p.dec_ref m).2 = ((p.dec_ref m).1, (p.dec_ref m).2)) := by
  refine ⟨?_, ?_, ?_, fun q hq => dec_ref_invalid q m hq,
    dec_ref_invalid _ _ (dec_ref_fst_data_zero p m)⟩
  · refine ⟨?_, dec_ref_fst_data_zero p m, ?_⟩
    · by_cases hz : m.lookup p._refs - 1 = 0
      · rw [dec_ref_valid_zero p m hv hz]
      · rw [dec_ref_valid_pos p m hv hz]
    · rw [is_valid_false_iff]
      exact dec_ref_fst_data_zero p m
  · intro h1
    have hz : m.lookup p._refs - 1 = 0 := by omega
    rw [dec_ref_valid_zero p m hv hz]
    exact ⟨hasCell_free_self _ _, rfl, rfl⟩
  · intro h1
    have hz : m.lookup p._refs - 1 ≠ 0 := by omega
    rw [dec_ref_valid_pos p m hv hz]
    have hcell : hasCell m.mallocs p._refs = true :=
      hasCell_of_lookup_pos _ _ (show 0 < m.lookup p._refs by omega)
    refine ⟨?_, ?_, rfl, rfl⟩
    · rw [Mem.lookup_store_self _ _ _ hcell, hn]
    · show hasCell (storeCell m.mallocs p._refs (m.lookup p._refs - 1))
          p._refs = true
      rw [hasCell_store]
      exact hcell

/-- Witness for C5 on a handle whose cell holds count 2. -/
theorem c5_destroy_decrements_and_frees_at_zero_witness :
    (Pointer.dec_ref ⟨1, 2⟩ ⟨3, [(1, 2)], [2], 1, 0, 8⟩).2.lookup 1 = 2 - 1
  ∧ (Pointer.dec_ref ⟨1, 2⟩ ⟨3, [(1, 2)], [2], 1, 0, 8⟩).1.is_valid = false := by
  have h := c5_destroy_decrements_and_frees_at_zero ⟨3, [(1, 2)], [2], 1, 0, 8⟩
    ⟨1, 2⟩ 2 (by decide) (by decide) (by decide)
  exact ⟨(h.2.2.1 (by decide)).1, h.1.2.2⟩

/-- C6: for every length, constructing from a null source pointer raises the
invalid-argument error, and the counter cell and data buffer allocated for the
attempt are both released before the error propagates: the live `malloc` set
and the live data-buffer set are back to their pre-construction values, with
exactly one allocator call matched by exactly one deallocator call. -/
theorem c6_null_source_releases_allocations (tSize : Nat) (m : Mem) (len : Nat)
    (hwf : m.WF) :
    (Pointer.ctorData tSize m 0 len true true).1 = .error .invalid_argument
  ∧ (Pointer.ctorData tSize m 0 len true true).2.mallocs = m.mallocs
  ∧ (Pointer.ctorData tSize m 0 len true true).2.dataAllocs = m.dataAllocs
  ∧ (Pointer.ctorData tSize m 0 len true true).2.allocCount = m.allocCount + 1
  ∧ (Pointer.ctorData tSize m 0 len true true).2.deallocCount
      = m.deallocCount + 1 := by
  obtain ⟨hw1, hw2, hw3⟩ := hwf
  have hA : m.nextAddr ≠ 0 := by omega
  obtain ⟨hn1, hn2, hn3, hn4, hn5, hn6, hn7⟩ := ctorData_null_spec tSize m len hA
  have hno : hasCell m.mallocs m.nextAddr = false :=
    hasCell_false_of_ne _ _ (fun x hx => by have := hw2 x hx; omega)
  refine ⟨hn1, ?_, ?_, hn5, hn6⟩
  · rw [hn3, storeCell_of_not_has _ _ _ hno, storeCell_of_not_has _ _ _ hno,
      freeCell_of_not_has _ _ hno]
  · rw [hn4]
    apply List.filter_eq_self.mpr
    intro x hx
    have := hw3 x hx
    simp only [decide_eq_true_eq]
    omega

/-- Witness for C6 from the initial allocator state. -/
theorem c6_null_source_releases_allocations_witness :
    (Pointer.ctorData 4 Mem.init 0 5 true true).1 = .error .invalid_argument
  ∧ (Pointer.ctorData 4 Mem.init 0 5 true true).2.mallocs = Mem.init.mallocs := by
  have h := c6_null_source_releases_allocations 4 Mem.init 5 memInit_WF
  exact ⟨h.1, h.2.1⟩

/-- C7: handle-to-handle equality holds exactly when both the counter-cell
pointers and the buffer pointers coincide; handle-to-raw equality holds exactly
when the buffer pointer equals the raw address; and two handles from separate,
independently successful constructions are never equal (the second construction
starts at or beyond the first one's high-water mark, as every operation only
advances it). -/
theorem c7_equality_is_aliasing :
    (∀ a b : Pointer,
      Pointer.eq a b = true ↔ (a._refs = b._refs ∧ a._data = b._data))
  ∧ (∀ (a : Pointer) (r : Nat), Pointer.eqRaw a r = true ↔ a._data = r)
  ∧ (∀ (tSize₁ tSize₂ len₁ len₂ : Nat) (m₁ m₂ m₁' m₂' : Mem) (p q : Pointer),
      Pointer.ctorLen tSize₁ m₁ len₁ true true = (.ok p, m₁') →
      m₁'.nextAddr ≤ m₂.nextAddr →
      Pointer.ctorLen tSize₂ m₂ len₂ true true = (.ok q, m₂') →
      Pointer.eq p q = false) := by
  refine ⟨?_, ?_, ?_⟩
  · intro a b
    simp [Pointer.eq]
  · intro a r
    simp [Pointer.eqRaw]
  · intro t₁ t₂ l₁ l₂ m₁ m₂ m₁' m₂' p q h1 hle h2
    obtain ⟨hp1, hp2, hn1, -⟩ := ctorLen_ok_shape _ _ _ _ _ _ _ h1
    obtain ⟨hq1, hq2, -, -⟩ := ctorLen_ok_shape _ _ _ _ _ _ _ h2
    simp [Pointer.eq]
    omega

/-- Witness for C7: a handle equals itself and its own buffer address, and two
independently constructed handles are unequal. -/
theorem c7_equality_is_aliasing_witness :
    Pointer.eq ⟨1, 2⟩ ⟨1, 2⟩ = true
  ∧ Pointer.eqRaw ⟨1, 2⟩ 2 = true
  ∧ Pointer.eq ⟨1, 2⟩ ⟨3, 4⟩ = false :=
  ⟨(c7_equality_is_aliasing.1 ⟨1, 2⟩ ⟨1, 2⟩).mpr ⟨rfl, rfl⟩,
   (c7_equality_is_aliasing.2.1 ⟨1, 2⟩ 2).mpr rfl,
   c7_equality_is_aliasing.2.2 4 4 3 5 Mem.init ⟨3, [(1, 1)], [2], 1, 0, 12⟩
     ⟨3, [(1, 1)], [2], 1, 0, 12⟩ ⟨5, [(3, 1), (1, 1)], [4, 2], 2, 0, 32⟩
     ⟨1, 2⟩ ⟨3, 4⟩ rfl (by decide) rfl⟩

/-- C8: for every buffer length, including length zero, constructing a handle
and immediately destroying it leaves exactly one injected-allocator call
matched by exactly one injected-deallocator call and restores the live
`malloc` and data-buffer sets to their pre-construction values: no leak, no
double free. -/
theorem c8_construct_destroy_restores_counts (tSize : Nat) (m : Mem)
    (len : Nat) (hwf : m.WF) :
    ∃ (p : Pointer) (m₁ : Mem),
      Pointer.ctorLen tSize m len true true = (.ok p, m₁)
      ∧ (p.dec_ref m₁).2.allocCount = m.allocCount + 1
      ∧ (p.dec_ref m₁).2.deallocCount = m.deallocCount + 1
      ∧ (p.dec_ref m₁).2.mallocs = m.mallocs
      ∧ (p.dec_ref m₁).2.dataAllocs = m.dataAllocs := by
  obtain ⟨hw1, hw2, hw3⟩ := hwf
  have hA : m.nextAddr ≠ 0 := by omega
  have hno : hasCell m.mallocs m.nextAddr = false :=
    hasCell_false_of_ne _ _ (fun x hx => by have := hw2 x hx; omega)
  refine ⟨⟨m.nextAddr, m.nextAddr + 1⟩,
    ⟨m.nextAddr + 1 + 1, (m.nextAddr, 1) :: storeCell m.mallocs m.nextAddr 1,
     (m.nextAddr + 1) :: m.dataAllocs, m.allocCount + 1, m.deallocCount,
     m.allocatedSize + len * tSize⟩,
    ctorLen_ok tSize m len hA, ?_⟩
  have hlk : (⟨m.nextAddr + 1 + 1,
      (m.nextAddr, 1) :: storeCell m.mallocs m.nextAddr 1,
      (m.nextAddr + 1) :: m.dataAllocs, m.allocCount + 1, m.deallocCount,
      m.allocatedSize + len * tSize⟩ : Mem).lookup m.nextAddr = 1 := by
    simp [Mem.lookup, lookupCell]
  have hdr := dec_ref_valid_zero (⟨m.nextAddr, m.nextAddr + 1⟩ : Pointer)
    ⟨m.nextAddr + 1 + 1, (m.nextAddr, 1) :: storeCell m.mallocs m.nextAddr 1,
     (m.nextAddr + 1) :: m.dataAllocs, m.allocCount + 1, m.deallocCount,
     m.allocatedSize + len * tSize⟩
    (show m.nextAddr + 1 ≠ 0 by omega)
    (show (⟨m.nextAddr + 1 + 1,
        (m.nextAddr, 1) :: storeCell m.mallocs m.nextAddr 1,
        (m.nextAddr + 1) :: m.dataAllocs, m.allocCount + 1, m.deallocCount,
        m.allocatedSize + len * tSize⟩ : Mem).lookup m.nextAddr - 1 = 0 by
      rw [hlk])
  rw [hdr]
  refine ⟨rfl, rfl, ?_, ?_⟩
  · show freeCell (storeCell ((m.nextAddr, 1) :: storeCell m.mallocs m.nextAddr 1)
        m.nextAddr 0) m.nextAddr = m.mallocs
    simp [storeCell, freeCell,
      storeCell_of_not_has m.mallocs m.nextAddr 1 hno,
      storeCell_of_not_has m.mallocs m.nextAddr 0 hno,
      freeCell_of_not_has m.mallocs m.nextAddr hno]
  · show ((m.nextAddr + 1) :: m.dataAllocs).filter
        (fun x => x ≠ m.nextAddr + 1) = m.dataAllocs
    simp
    intro x hx
    have := hw3 x hx
    omega

/-- Witness for C8 at the degenerate zero-length case. -/
theorem c8_construct_destroy_restores_counts_witness :
    ∃ (p : Pointer) (m₁ : Mem),
      Pointer.ctorLen 4 Mem.init 0 true true = (.ok p, m₁)
      ∧ (p.dec_ref m₁).2.allocCount = Mem.init.allocCount + 1
      ∧ (p.dec_ref m₁).2.deallocCount = Mem.init.deallocCount + 1
      ∧ (p.dec_ref m₁).2.mallocs = Mem.init.mallocs
      ∧ (p.dec_ref m₁).2.dataAllocs = Mem.init.dataAllocs :=
  c8_construct_destroy_restores_counts 4 Mem.init 0 memInit_WF

/-- C9: copy construction from an invalid handle and copy assignment of an
invalid handle are well defined: the increment is skipped, the destination
ends invalid with reported count 0, and a valid destination of copy assignment
still releases its prior reference first (its cell is decremented, and freed
together with its buffer when it held the last reference). -/
theorem c9_copy_from_invalid_is_safe (m : Mem) (src d : Pointer)
    (hr : src._refs = 0) (hd0 : src._data = 0) :
    ((src.copyCtor m).1.is_valid = false
      ∧ (src.copyCtor m).1.get_ref_count (src.copyCtor m).2 = 0
      ∧ (src.copyCtor m).2 = m)
  ∧ ((d.copyAssign src m).1.is_valid = false
      ∧ (d.copyAssign src m).1.get_ref_count (d.copyAssign src m).2 = 0
      ∧ (d.copyAssign src m).2 = (d.dec_ref m).2)
  ∧ (d._data ≠ 0 → m.lookup d._refs = 1 →
      hasCell (d.copyAssign src m).2.mallocs d._refs = false
      ∧ (d.copyAssign src m).2.deallocCount = m.deallocCount + 1)
  ∧ (d._data ≠ 0 → 2 ≤ m.lookup d._refs →
      (d.copyAssign src m).2.lookup d._refs = m.lookup d._refs - 1) := by
  have hca : d.copyAssign src m = (⟨0, 0⟩, (d.dec_ref m).2) := by
    simp [Pointer.copyAssign, hr, dec_ref_fst_data_zero]
  refine ⟨?_, ?_, ?_, ?_⟩
  · rw [copyCtor_invalid src m hr]
    refine ⟨?_, ?_, rfl⟩
    · rw [is_valid_false_iff]
      exact hd0
    · exact get_ref_count_invalid _ _ hd0
  · rw [hca]
    exact ⟨rfl, rfl, rfl⟩
  · intro hdv hk
    rw [hca]
    have hz : m.lookup d._refs - 1 = 0 := by omega
    rw [dec_ref_valid_zero d m hdv hz]
    exact ⟨hasCell_free_self _ _, rfl⟩
  · intro hdv hk
    rw [hca]
    have hz : m.lookup d._refs - 1 ≠ 0 := by omega
    rw [dec_ref_valid_pos d m hdv hz]
    have hcell : hasCell m.mallocs d._refs = true :=
      hasCell_of_lookup_pos _ _ (show 0 < m.lookup d._refs by omega)
    rw [Mem.lookup_store_self _ _ _ hcell]

/-- Witness for C9: assigning an invalid handle into the last owner of a
buffer invalidates the destination and frees its cell. -/
theorem c9_copy_from_invalid_is_safe_witness :
    (Pointer.copyAssign ⟨1, 2⟩ ⟨0, 0⟩ ⟨3, [(1, 1)], [2], 1, 0, 8⟩).1.is_valid
        = false
  ∧ hasCell (Pointer.copyAssign ⟨1, 2⟩ ⟨0, 0⟩
        ⟨3, [(1, 1)], [2], 1, 0, 8⟩).2.mallocs 1 = false := by
  have h := c9_copy_from_invalid_is_safe ⟨3, [(1, 1)], [2], 1, 0, 8⟩
    ⟨0, 0⟩ ⟨1, 2⟩ rfl rfl
  exact ⟨h.2.1.1, (h.2.2.1 (by decide) (by decide)).1⟩

/-- C10: any two fully invalid handles (for example default-constructed or
moved-from ones) compare equal under the handle-to-handle equality operator,
although they share no counter cell or buffer allocation. -/
theorem c10_invalid_handles_compare_equal (a b : Pointer)
    (ha1 : a._refs = 0) (ha2 : a._data = 0)
    (hb1 : b._refs = 0) (hb2 : b._data = 0) :
    Pointer.eq a b = true := by
  simp [Pointer.eq, ha1, ha2, hb1, hb2]

/-- Witness for C10: two default-constructed handles compare equal. -/
theorem c10_invalid_handles_compare_equal_witness :
    Pointer.eq Pointer.defaultCtor Pointer.defaultCtor = true :=
  c10_invalid_handles_compare_equal Pointer.defaultCtor Pointer.defaultCtor
    rfl rfl rfl rfl

end SimpleCPP
